import Mathlib

/-!
Verification of the LMS growth-percentile engine of brown-sung/drlike6.

The repository computes a growth percentile from LMS (Lambda-Mu-Sigma)
reference parameters.  Two source variants exist:

* `src/unnamed/part_000` (`calculatePercentile`): looks the (L, M, S) row up
  in a key-value store, computes the LMS Z-score, converts it to a percentile
  with the Abramowitz-Stegun 7.1.26 closed-form erf approximation and returns
  the result rounded to one decimal (`toFixed(1)`), or a typed no-data
  failure `[null, message]` carrying the unresolved age and measurement type.
* `src/index.js` (and part_002..part_006): the same Z-score formula followed
  by `jStat.normal.cdf` and `toFixed(2)`.

This file embeds the part_000 pipeline (whose numeric path is entirely
in-repository) over `ℝ`; the Z-score definition `zScore` is shared verbatim
by both variants.  JavaScript floating point is modelled by real arithmetic,
`Math.pow` on a real exponent by `Real.rpow`, `Math.log` by `Real.log`,
`Math.exp` by `Real.exp`, and `toFixed(1)` (round half away from zero, which
for the positive arguments arising here is `⌊10·x + 1/2⌋ / 10`) by `toFixed1`.
The age helper `calculateAgeInMonths` (part_000 lines 35-45) is embedded over
abstract calendar dates (year, month, day); `new Date(...)` parsing is
abstracted away.
-/

namespace Drlike6

/-- One LMS reference row: the parameter triple (L, M, S) as parsed in
src/unnamed/part_000 lines 56-58 (`parseFloat(lmsData.L)` and so on). -/
structure LMSRow where
  L : ℝ
  M : ℝ
  S : ℝ

/-- Constant `p = 0.3275911` of part_000 line 69. -/
noncomputable def p : ℝ := 0.3275911

/-- Constant `a1 = 0.254829592` of part_000 line 70. -/
noncomputable def a1 : ℝ := 0.254829592

/-- Constant `a2 = -0.284496736` of part_000 line 70. -/
noncomputable def a2 : ℝ := -0.284496736

/-- Constant `a3 = 1.421413741` of part_000 line 70. -/
noncomputable def a3 : ℝ := 1.421413741

/-- Constant `a4 = -1.453152027` of part_000 line 70. -/
noncomputable def a4 : ℝ := -1.453152027

/-- Constant `a5 = 1.061405429` of part_000 line 70. -/
noncomputable def a5 : ℝ := 1.061405429

/-- The Horner bracket `(((((a5 * t + a4) * t) + a3) * t + a2) * t + a1)`
of part_000 line 73. -/
noncomputable def horner (t : ℝ) : ℝ := ((((a5 * t + a4) * t + a3) * t + a2) * t + a1)

/-- Part_000 lines 72-73: `t = 1.0 / (1.0 + p * Math.abs(Z))` and
`erf = 1.0 - bracket * t * Math.exp(-Z * Z)`. -/
noncomputable def erfApprox (z : ℝ) : ℝ :=
  1 - horner (1 / (1 + p * |z|)) * (1 / (1 + p * |z|)) * Real.exp (-(z * z))

/-- Part_000 line 71: `const sign = (Z < 0) ? -1 : 1` (so `sign 0 = 1`). -/
noncomputable def signJs (z : ℝ) : ℝ := if z < 0 then -1 else 1

/-- Part_000 line 74: `percentile = (0.5 * (1.0 + sign * erf)) * 100`. -/
noncomputable def percentileFromZ (z : ℝ) : ℝ :=
  (0.5 * (1 + signJs z * erfApprox z)) * 100

/-- The LMS Z-score, part_000 lines 61-66 (the identical branch appears in
src/index.js lines 76-80 and in part_002..part_006):
`if (L !== 0) Z = (Math.pow(x / M, L) - 1) / (L * S); else Z = Math.log(x / M) / S`. -/
noncomputable def zScore (L M S x : ℝ) : ℝ :=
  if L ≠ 0 then ((x / M) ^ L - 1) / (L * S) else Real.log (x / M) / S

/-- JavaScript `Number.prototype.toFixed(1)` read back as a number.  For a
nonnegative argument (the engine only rounds percentiles, which lie in
(0, 100)) this is rounding half up to one decimal: `⌊10 x + 1/2⌋ / 10`. -/
noncomputable def toFixed1 (x : ℝ) : ℝ := (⌊x * 10 + 1 / 2⌋ : ℝ) / 10

/-- The typed failure of the part_000 engine.  On a missing row the code
returns the pair `[null, msg]` where the message interpolates the unresolved
`ageMonths` and `measurementType`; `noData` carries exactly those two. -/
inductive PercentileError where
  | noData (ageMonths : ℤ) (measurementType : String)
deriving DecidableEq

/-- The part_000 percentile engine `calculatePercentile(gender, ageMonths,
measurementType, value)` (lines 48-77).  The key-value lookup
`kv.hgetall(key)` with key built from the (gender, measurementType,
ageMonths) triple, followed by the `!lmsData || !lmsData.L` absence check,
is modelled by a store function returning `Option LMSRow`; a `none` result
yields the typed no-data failure, otherwise the code computes the Z-score,
the A&S percentile, and returns it rounded by `toFixed(1)`. -/
noncomputable def calculatePercentile
    (store : ℤ → String → ℤ → Option LMSRow)
    (gender ageMonths : ℤ) (measurementType : String) (value : ℝ) :
    Except PercentileError ℝ :=
  match store gender measurementType ageMonths with
  | none => .error (.noData ageMonths measurementType)
  | some lms => .ok (toFixed1 (percentileFromZ (zScore lms.L lms.M lms.S value)))

/-- A calendar date as the embedding of the JavaScript `Date` components that
`calculateAgeInMonths` reads: `getFullYear()`, `getMonth()` and the (unread)
day of month.  Only month differences occur, so the 0-based JS month
convention and the 1-based human convention coincide; dates are written
1-based below. -/
structure SimpleDate where
  year : ℤ
  month : ℤ
  day : ℤ
deriving DecidableEq

/-- Part_000 lines 35-45 with the implicit `today = new Date()` made an
explicit argument:
`years = today.getFullYear() - birthDate.getFullYear();
months = today.getMonth() - birthDate.getMonth();
if (months < 0) { years--; months += 12; }
return years * 12 + months;`. -/
def calculateAgeInMonths (birthDate today : SimpleDate) : ℤ :=
  let years := today.year - birthDate.year
  let months := today.month - birthDate.month
  if months < 0 then (years - 1) * 12 + (months + 12) else years * 12 + months

/-- One CSV record as produced by `parse(csvData, { columns: true, ... })` in
src/build-data.js: each named column holds the cell text, a missing column
is `none`. -/
structure CsvRecord where
  Month : Option String
  L : Option String
  M : Option String
  S : Option String
deriving DecidableEq

/-- The value stored per row by src/build-data.js lines 36-42: the three
`parseFloat` results.  A JavaScript number that may be NaN is modelled as
`Option ℚ`, with `none` for NaN (`parseFloat` of a non-numeric cell or of a
missing column). -/
structure RawLMS where
  L : Option ℚ
  M : Option ℚ
  S : Option ℚ
deriving DecidableEq

/-- The row-processing loop of src/build-data.js lines 36-42:
`records.forEach(record => { data[sex][type][record.Month] = {
L: parseFloat(record.L), M: parseFloat(record.M), S: parseFloat(record.S) }})`.
The numeric parser is a parameter (`parseF`, JavaScript `parseFloat` with
`none` for NaN); the loop assigns every record unconditionally, so the
embedding records the full assignment sequence.  The function is total: the
only `throw` in `buildData` concerns a missing file, and no check of any
parsed value exists. -/
def buildTable (parseF : Option String → Option ℚ) (records : List CsvRecord) :
    List (Option String × RawLMS) :=
  records.map fun r => (r.Month, ⟨parseF r.L, parseF r.M, parseF r.S⟩)

/-- Spec-side erf approximation, written from the words of spec.md section 4.3:
`t = 1 / (1 + p |Z|)` with `p = 0.3275911`, and
`erf_approx = 1 - (((((a5 t + a4) t + a3) t + a2) t + a1) t) e^(-Z^2)`. -/
noncomputable def erfSpec (z : ℝ) : ℝ :=
  1 - (((((1.061405429 * (1 / (1 + 0.3275911 * |z|)) + -1.453152027) *
      (1 / (1 + 0.3275911 * |z|)) + 1.421413741) * (1 / (1 + 0.3275911 * |z|)) +
      -0.284496736) * (1 / (1 + 0.3275911 * |z|)) + 0.254829592) *
      (1 / (1 + 0.3275911 * |z|))) * Real.exp (-(z ^ 2))

/-- Spec-side percentile, written from the words of spec.md section 4.3:
`percentile = 50 * (1 + sign(Z) * erf_approx)`, with the source's sign
convention `sign 0 = 1`. -/
noncomputable def percentileSpec (z : ℝ) : ℝ := 50 * (1 + signJs z * erfSpec z)

/-- C1: for every measurement value and parameters with M > 0 and S > 0, the
Z-score is computed by an explicit two-way branch on L: the power formula
`((value / M)^L - 1) / (L * S)` when `L ≠ 0`, and the log formula
`ln(value / M) / S` exactly when `L = 0`. -/
theorem zScore_branches (value L M S : ℝ) (hM : 0 < M) (hS : 0 < S) :
    (L ≠ 0 → zScore L M S value = ((value / M) ^ L - 1) / (L * S)) ∧
    (L = 0 → zScore L M S value = Real.log (value / M) / S) := by
  constructor
  · intro hL
    simp [zScore, hL]
  · intro hL
    simp [zScore, hL]

/-- Witness for C1 at the concrete input value = 3, L = 2, M = 1, S = 1. -/
theorem zScore_branches_witness :
    zScore 2 1 1 3 = ((3 / 1 : ℝ) ^ (2 : ℝ) - 1) / (2 * 1) ∧ (0 : ℝ) < 1 :=
  ⟨(zScore_branches 3 2 1 1 one_pos one_pos).1 two_ne_zero, one_pos⟩

/-- C2: the percentile computed by the erf-approximation variant equals, for
every Z, the Abramowitz-Stegun 7.1.26 scheme of the spec:
50 * (1 + sign(Z) * erf_approx) with the stated constants (the source's sign
convention is sign(0) = 1). -/
theorem percentile_eq_abramowitz_stegun (z : ℝ) :
    percentileFromZ z = percentileSpec z := by
  simp only [percentileFromZ, percentileSpec, erfApprox, erfSpec, horner,
    a1, a2, a3, a4, a5, p, pow_two]
  ring

/-- C5: the age helper returns exactly years*12 + months, where
years = today.year - birth.year and months = today.month - birth.month, with
12 added to months and years decremented when months < 0; the day components
of both dates never affect the result. -/
theorem calculateAgeInMonths_formula (b t : SimpleDate) :
    (calculateAgeInMonths b t =
      if t.month - b.month < 0 then
        ((t.year - b.year) - 1) * 12 + ((t.month - b.month) + 12)
      else (t.year - b.year) * 12 + (t.month - b.month)) ∧
    (∀ d₁ d₂ : ℤ,
      calculateAgeInMonths { b with day := d₁ } { t with day := d₂ } =
        calculateAgeInMonths b t) := by
  constructor
  · rfl
  · intro d₁ d₂
    rfl

/-- C6 counterexample: with birth date 2023-05-10 and reference date
2024-05-09 the code returns 12, not the 11 the spec's boundary test expects
(the day-insensitive formula ignores the day columns 10 and 9 entirely, and
the month difference is 0, so the result is one full year = 12 months). -/
theorem ageInMonths_boundary_counterexample :
    calculateAgeInMonths ⟨2023, 5, 10⟩ ⟨2024, 5, 9⟩ ≠ 11 := by
  decide

/-- C6 amended: the boundary evaluations of the code are 12, 12 and 13: one
day short of the first birthday already counts 12 months under the
day-insensitive formula. -/
theorem ageInMonths_boundary_values :
    calculateAgeInMonths ⟨2023, 5, 10⟩ ⟨2024, 5, 9⟩ = 12 ∧
    calculateAgeInMonths ⟨2023, 5, 10⟩ ⟨2024, 5, 10⟩ = 12 ∧
    calculateAgeInMonths ⟨2023, 5, 10⟩ ⟨2024, 6, 1⟩ = 13 := by
  refine ⟨by decide, by decide, by decide⟩

/-- C8: a key without a reference row yields the typed no-data failure
carrying the unresolved ageMonths and measurementType, and never any ok
percentile (in particular no null conflatable with a zero percentile). -/
theorem calculatePercentile_missing_row
    (store : ℤ → String → ℤ → Option LMSRow) (gender ageMonths : ℤ)
    (measurementType : String) (value : ℝ)
    (habsent : store gender measurementType ageMonths = none) :
    calculatePercentile store gender ageMonths measurementType value =
      .error (.noData ageMonths measurementType) ∧
    ∀ r : ℝ, calculatePercentile store gender ageMonths measurementType value ≠ .ok r := by
  constructor
  · simp [calculatePercentile, habsent]
  · intro r
    simp [calculatePercentile, habsent]

/-- Witness for C8: the empty store at age 300 months (outside the populated
0..227 range) yields the typed no-data failure for (300, "height"). -/
theorem calculatePercentile_missing_row_witness :
    calculatePercentile (fun _ _ _ => none) 1 300 "height" 87 =
      .error (.noData 300 "height") :=
  (calculatePercentile_missing_row (fun _ _ _ => none) 1 300 "height" 87 rfl).1

/-- C7 (code-bug exhibit): the engine performs no validation of the
measurement value.  With a resolvable row L = 1, M = 2, S = 1 and the invalid
measurement value -1, the code computes the Z-score -3/2 from the
non-positive value and returns an ok percentile, instead of rejecting the
input with a distinct invalid-measurement-value error before the Z-score
step. -/
theorem calculatePercentile_accepts_nonpositive :
    zScore 1 2 1 (-1) = -(3 / 2) ∧
    calculatePercentile (fun _ _ _ => some ⟨1, 2, 1⟩) 1 24 "height" (-1) =
      .ok (toFixed1 (percentileFromZ (-(3 / 2)))) := by
  have hz : zScore 1 2 1 (-1) = -(3 / 2) := by
    rw [zScore, if_pos one_ne_zero]
    rw [show ((-1 : ℝ) / 2) = ((-1 / 2 : ℝ)) from rfl]
    rw [Real.rpow_one]
    norm_num
  refine ⟨hz, ?_⟩
  show Except.ok (toFixed1 (percentileFromZ (zScore 1 2 1 (-1)))) = _
  rw [hz]

/-- C9 (code-bug exhibit): the build loop of src/build-data.js never fails on
a malformed row.  Any record whose L cell does not parse to a number
(`parseF r.L = none`, i.e. `parseFloat` returned NaN) is nevertheless stored,
with a NaN L parameter, and every record of the source — malformed ones
included — is published into the table (nothing is skipped, no error is
raised). -/
theorem buildTable_publishes_malformed
    (parseF : Option String → Option ℚ) (records : List CsvRecord)
    (r : CsvRecord) (hmem : r ∈ records) (hbad : parseF r.L = none) :
    (r.Month, RawLMS.mk none (parseF r.M) (parseF r.S)) ∈ buildTable parseF records ∧
    (buildTable parseF records).length = records.length := by
  constructor
  · have h : (r.Month, RawLMS.mk (parseF r.L) (parseF r.M) (parseF r.S)) ∈
        buildTable parseF records := List.mem_map_of_mem _ hmem
    rwa [hbad] at h
  · exact List.length_map records _

/-- Witness for C9: a one-row source whose L cell is the non-numeric text
"abc" (parsed to NaN by the all-NaN parser) is published into the table with
a NaN L parameter and the build completes with the full row count. -/
theorem buildTable_publishes_malformed_witness :
    (some "0", RawLMS.mk none none none) ∈
      buildTable (fun _ => none) [⟨some "0", some "abc", some "3.5", some "0.1"⟩] ∧
    (buildTable (fun _ => none) [⟨some "0", some "abc", some "3.5", some "0.1"⟩]).length = 1 :=
  buildTable_publishes_malformed (fun _ => none) _
    ⟨some "0", some "abc", some "3.5", some "0.1"⟩ (List.mem_singleton.mpr rfl) rfl

/-!
Positivity of the Abramowitz-Stegun quartic on [0, 1], via an exact
Bernstein-basis decomposition with positive coefficients.  All the rational
constants below were computed exactly from a1..a5 and p and the identities
are checked by `ring`.
-/

lemma p_pos : 0 < p := by norm_num [p]

/-- Exact Bernstein decomposition of the Horner bracket on [0, 1]: all five
coefficients are positive rationals. -/
lemma horner_bernstein (t : ℝ) :
    horner t = (31853699 / 125000000) * (1 - t) ^ 4 +
      (2870397 / 3906250) * t * (1 - t) ^ 3 +
      (419380217 / 200000000) * t ^ 2 * (1 - t) ^ 2 +
      (311100723 / 200000000) * t ^ 3 * (1 - t) +
      (999999999 / 1000000000) * t ^ 4 := by
  simp only [horner, a1, a2, a3, a4, a5]
  norm_num
  ring

lemma horner_pos {t : ℝ} (h0 : 0 ≤ t) (h1 : t ≤ 1) : 0 < horner t := by
  have hu : 0 ≤ 1 - t := by linarith
  rw [horner_bernstein]
  rcases lt_or_le t 1 with hlt | hge
  · have h4 : 0 < (31853699 / 125000000 : ℝ) * (1 - t) ^ 4 := by
      have : 0 < (1 - t) ^ 4 := pow_pos (by linarith) 4
      nlinarith
    have n1 : 0 ≤ (2870397 / 3906250 : ℝ) * t * (1 - t) ^ 3 := by
      apply mul_nonneg (mul_nonneg (by norm_num) h0) (pow_nonneg hu 3)
    have n2 : 0 ≤ (419380217 / 200000000 : ℝ) * t ^ 2 * (1 - t) ^ 2 := by
      apply mul_nonneg (mul_nonneg (by norm_num) (pow_nonneg h0 2)) (pow_nonneg hu 2)
    have n3 : 0 ≤ (311100723 / 200000000 : ℝ) * t ^ 3 * (1 - t) := by
      apply mul_nonneg (mul_nonneg (by norm_num) (pow_nonneg h0 3)) hu
    have n4 : 0 ≤ (999999999 / 1000000000 : ℝ) * t ^ 4 := by
      apply mul_nonneg (by norm_num) (pow_nonneg h0 4)
    linarith
  · have ht : t = 1 := le_antisymm h1 hge
    subst ht
    norm_num

/-- The Horner bracket never exceeds its largest Bernstein coefficient
999999999/1000000000 on [0, 1] (in particular it stays strictly below 1). -/
lemma horner_le {t : ℝ} (h0 : 0 ≤ t) (h1 : t ≤ 1) :
    horner t ≤ 999999999 / 1000000000 := by
  have hu : 0 ≤ 1 - t := by linarith
  have key : (999999999 / 1000000000 : ℝ) - horner t =
      (745170407 / 1000000000) * (1 - t) ^ 4 +
      (3265178364 / 1000000000) * t * (1 - t) ^ 3 +
      (3903098909 / 1000000000) * t ^ 2 * (1 - t) ^ 2 +
      (2444496381 / 1000000000) * t ^ 3 * (1 - t) := by
    simp only [horner, a1, a2, a3, a4, a5]
    norm_num
    ring
  have n1 : 0 ≤ (745170407 / 1000000000 : ℝ) * (1 - t) ^ 4 :=
    mul_nonneg (by norm_num) (pow_nonneg hu 4)
  have n2 : 0 ≤ (3265178364 / 1000000000 : ℝ) * t * (1 - t) ^ 3 :=
    mul_nonneg (mul_nonneg (by norm_num) h0) (pow_nonneg hu 3)
  have n3 : 0 ≤ (3903098909 / 1000000000 : ℝ) * t ^ 2 * (1 - t) ^ 2 :=
    mul_nonneg (mul_nonneg (by norm_num) (pow_nonneg h0 2)) (pow_nonneg hu 2)
  have n4 : 0 ≤ (2444496381 / 1000000000 : ℝ) * t ^ 3 * (1 - t) :=
    mul_nonneg (mul_nonneg (by norm_num) (pow_nonneg h0 3)) hu
  linarith

/-- Derivative of t * horner t (the polynomial part of the A&S expression),
as a polynomial in t. -/
noncomputable def Qd (t : ℝ) : ℝ :=
  a1 + 2 * a2 * t + 3 * a3 * t ^ 2 + 4 * a4 * t ^ 3 + 5 * a5 * t ^ 4

/-- Up to the positive factor exp(-x^2)/(p*t), this is the x-derivative of
the map x ↦ horner(t(x)) * t(x) * exp(-x^2) with t(x) = 1/(1+p*x), negated:
the sign of the derivative of fPos below is the sign of Sp(t). -/
noncomputable def Sp (t : ℝ) : ℝ :=
  2 * (1 - t) * horner t + p ^ 2 * t ^ 2 * Qd t

/-- Exact Bernstein decomposition of Sp on [0, 1]: all seven coefficients
are positive rationals (common denominator 10^23). -/
lemma Sp_bernstein (t : ℝ) :
    Sp t = (50965918400000000000000 / 100000000000000000000000) * (1 - t) ^ 6 +
      (197930244800000000000000 / 100000000000000000000000) * t * (1 - t) ^ 5 +
      (569079270835100373422232 / 100000000000000000000000) * t ^ 2 * (1 - t) ^ 4 +
      (735313643447564764813216 / 100000000000000000000000) * t ^ 3 * (1 - t) ^ 3 +
      (554952569279104471089639 / 100000000000000000000000) * t ^ 4 * (1 - t) ^ 2 +
      (221765948370332266429090 / 100000000000000000000000) * t ^ 5 * (1 - t) +
      (36964932826521659185980 / 100000000000000000000000) * t ^ 6 := by
  simp only [Sp, Qd, horner, a1, a2, a3, a4, a5, p]
  norm_num
  ring

lemma Sp_pos {t : ℝ} (h0 : 0 < t) (h1 : t ≤ 1) : 0 < Sp t := by
  have ht : 0 ≤ t := h0.le
  have hu : 0 ≤ 1 - t := by linarith
  rw [Sp_bernstein]
  have k6 : 0 < (36964932826521659185980 / 100000000000000000000000 : ℝ) * t ^ 6 := by
    have : 0 < t ^ 6 := pow_pos h0 6
    nlinarith
  have k0 : 0 ≤ (50965918400000000000000 / 100000000000000000000000 : ℝ) * (1 - t) ^ 6 :=
    mul_nonneg (by norm_num) (pow_nonneg hu 6)
  have k1 : 0 ≤ (197930244800000000000000 / 100000000000000000000000 : ℝ) * t * (1 - t) ^ 5 :=
    mul_nonneg (mul_nonneg (by norm_num) ht) (pow_nonneg hu 5)
  have k2 : 0 ≤ (569079270835100373422232 / 100000000000000000000000 : ℝ) * t ^ 2 * (1 - t) ^ 4 :=
    mul_nonneg (mul_nonneg (by norm_num) (pow_nonneg ht 2)) (pow_nonneg hu 4)
  have k3 : 0 ≤ (735313643447564764813216 / 100000000000000000000000 : ℝ) * t ^ 3 * (1 - t) ^ 3 :=
    mul_nonneg (mul_nonneg (by norm_num) (pow_nonneg ht 3)) (pow_nonneg hu 3)
  have k4 : 0 ≤ (554952569279104471089639 / 100000000000000000000000 : ℝ) * t ^ 4 * (1 - t) ^ 2 :=
    mul_nonneg (mul_nonneg (by norm_num) (pow_nonneg ht 4)) (pow_nonneg hu 2)
  have k5 : 0 ≤ (221765948370332266429090 / 100000000000000000000000 : ℝ) * t ^ 5 * (1 - t) :=
    mul_nonneg (mul_nonneg (by norm_num) (pow_nonneg ht 5)) hu
  linarith

/-- The restriction of the erf approximation to nonnegative arguments, with
the absolute value removed: erfApprox z = fPos |z|. -/
noncomputable def fPos (x : ℝ) : ℝ :=
  1 - horner (1 / (1 + p * x)) * (1 / (1 + p * x)) * Real.exp (-(x * x))

lemma erfApprox_eq_fPos (z : ℝ) : erfApprox z = fPos |z| := by
  simp only [erfApprox, fPos, abs_mul_abs_self]

lemma one_add_p_mul_pos {x : ℝ} (hx : 0 ≤ x) : 0 < 1 + p * x := by
  nlinarith [p_pos]

lemma tArg_pos {x : ℝ} (hx : 0 ≤ x) : 0 < 1 / (1 + p * x) :=
  div_pos one_pos (one_add_p_mul_pos hx)

lemma tArg_le_one {x : ℝ} (hx : 0 ≤ x) : 1 / (1 + p * x) ≤ 1 := by
  rw [div_le_one (one_add_p_mul_pos hx)]
  nlinarith [p_pos]

/-- On nonnegative arguments the A&S expression stays in [10^-9, 1): the
polynomial factor lies in (0, 999999999/10^9] and the Gaussian factor in
(0, 1]. -/
lemma fPos_bounds {x : ℝ} (hx : 0 ≤ x) : 1 / 10 ^ 9 ≤ fPos x ∧ fPos x < 1 := by
  have ht0 : 0 < 1 / (1 + p * x) := tArg_pos hx
  have ht1 : 1 / (1 + p * x) ≤ 1 := tArg_le_one hx
  have hh0 : 0 < horner (1 / (1 + p * x)) := horner_pos ht0.le ht1
  have hh1 : horner (1 / (1 + p * x)) ≤ 999999999 / 1000000000 := horner_le ht0.le ht1
  have hB0 : 0 < horner (1 / (1 + p * x)) * (1 / (1 + p * x)) := mul_pos hh0 ht0
  have hB1 : horner (1 / (1 + p * x)) * (1 / (1 + p * x)) ≤ 999999999 / 1000000000 := by
    calc horner (1 / (1 + p * x)) * (1 / (1 + p * x)) ≤
        horner (1 / (1 + p * x)) * 1 := by
          apply mul_le_mul_of_nonneg_left ht1 hh0.le
      _ ≤ 999999999 / 1000000000 := by rw [mul_one]; exact hh1
  have hE0 : 0 < Real.exp (-(x * x)) := Real.exp_pos _
  have hE1 : Real.exp (-(x * x)) ≤ 1 := by
    rw [Real.exp_le_one_iff]
    nlinarith [mul_self_nonneg x]
  constructor
  · have : horner (1 / (1 + p * x)) * (1 / (1 + p * x)) * Real.exp (-(x * x)) ≤
        999999999 / 1000000000 := by
      calc horner (1 / (1 + p * x)) * (1 / (1 + p * x)) * Real.exp (-(x * x)) ≤
          horner (1 / (1 + p * x)) * (1 / (1 + p * x)) * 1 :=
            mul_le_mul_of_nonneg_left hE1 hB0.le
        _ ≤ 999999999 / 1000000000 := by rw [mul_one]; exact hB1
    simp only [fPos]
    norm_num at this ⊢
    linarith
  · have : 0 < horner (1 / (1 + p * x)) * (1 / (1 + p * x)) * Real.exp (-(x * x)) :=
      mul_pos hB0 hE0
    simp only [fPos]
    linarith

/-- Derivative of the quintic u ↦ horner u * u at any point. -/
lemma hasDerivAt_horner_mul (s : ℝ) :
    HasDerivAt (fun u => horner u * u) (Qd s) s := by
  have hid : HasDerivAt (fun u : ℝ => u) 1 s := hasDerivAt_id s
  have h1 : HasDerivAt (fun u : ℝ => a5 * u + a4) a5 s := by
    simpa using (hid.const_mul a5).add_const a4
  have h2 : HasDerivAt (fun u : ℝ => (a5 * u + a4) * u + a3)
      (a5 * s + (a5 * s + a4) * 1) s := (h1.mul hid).add_const a3
  have h3 : HasDerivAt (fun u : ℝ => ((a5 * u + a4) * u + a3) * u + a2)
      ((a5 * s + (a5 * s + a4) * 1) * s + ((a5 * s + a4) * s + a3) * 1) s :=
    (h2.mul hid).add_const a2
  have h4 : HasDerivAt (fun u : ℝ => (((a5 * u + a4) * u + a3) * u + a2) * u + a1)
      (((a5 * s + (a5 * s + a4) * 1) * s + ((a5 * s + a4) * s + a3) * 1) * s +
        (((a5 * s + a4) * s + a3) * s + a2) * 1) s := (h3.mul hid).add_const a1
  have h5 := h4.mul hid
  have hfun : (fun u : ℝ => ((((a5 * u + a4) * u + a3) * u + a2) * u + a1) * u) =
      fun u => horner u * u := by
    funext u
    simp only [horner]
  rw [hfun] at h5
  convert h5 using 1
  simp only [Qd, horner]
  ring

/-- Derivative of fPos at any x with 1 + p * x > 0 (in particular any x ≥ 0):
exp(-x^2) times the bracket 2x * (horner t * t) + p * t^2 * Qd t, where
t = 1/(1+p*x). -/
lemma hasDerivAt_fPos {x : ℝ} (hx : 0 < 1 + p * x) :
    HasDerivAt fPos
      (Real.exp (-(x * x)) *
        (2 * x * (horner (1 / (1 + p * x)) * (1 / (1 + p * x))) +
          p * (1 / (1 + p * x)) ^ 2 * Qd (1 / (1 + p * x)))) x := by
  have hne : 1 + p * x ≠ 0 := ne_of_gt hx
  have hlin : HasDerivAt (fun y : ℝ => 1 + p * y) p x := by
    simpa using ((hasDerivAt_id x).const_mul p).const_add 1
  have hinv : HasDerivAt (fun y : ℝ => (1 + p * y)⁻¹) (-p / (1 + p * x) ^ 2) x :=
    hlin.inv hne
  have hcomp : HasDerivAt (fun y : ℝ => horner ((1 + p * y)⁻¹) * ((1 + p * y)⁻¹))
      (Qd ((1 + p * x)⁻¹) * (-p / (1 + p * x) ^ 2)) x := by
    have := (hasDerivAt_horner_mul ((1 + p * x)⁻¹)).comp x hinv
    simpa [Function.comp] using this
  have hsq : HasDerivAt (fun y : ℝ => -(y * y)) (-(1 * x + x * 1)) x :=
    ((hasDerivAt_id x).mul (hasDerivAt_id x)).neg
  have hexp : HasDerivAt (fun y : ℝ => Real.exp (-(y * y)))
      (Real.exp (-(x * x)) * -(1 * x + x * 1)) x := hsq.exp
  have hprod := hcomp.mul hexp
  have hfinal := hprod.const_sub 1
  have hfun : (fun y : ℝ => 1 - horner ((1 + p * y)⁻¹) * ((1 + p * y)⁻¹) *
      Real.exp (-(y * y))) = fPos := by
    funext y
    simp only [fPos, one_div]
  rw [hfun] at hfinal
  convert hfinal using 1
  simp only [one_div]
  field_simp
  ring

/-- The A&S expression is strictly increasing on nonnegative arguments: its
derivative is exp(-x^2) * Sp(t)/p with Sp(t) > 0 on the relevant range
t ∈ (0, 1]. -/
lemma fPos_strictMonoOn : StrictMonoOn fPos (Set.Ici 0) := by
  apply strictMonoOn_of_deriv_pos (convex_Ici 0)
  · intro y hy
    have hy0 : (0 : ℝ) ≤ y := hy
    exact (hasDerivAt_fPos (one_add_p_mul_pos hy0)).continuousAt.continuousWithinAt
  · intro y hy
    rw [interior_Ici] at hy
    have hy0 : 0 < y := hy
    have hu : 0 < 1 + p * y := one_add_p_mul_pos hy0.le
    rw [(hasDerivAt_fPos hu).deriv]
    have ht0 : 0 < 1 / (1 + p * y) := tArg_pos hy0.le
    have ht1 : 1 / (1 + p * y) ≤ 1 := tArg_le_one hy0.le
    have hpyt : p * y * (1 / (1 + p * y)) = 1 - 1 / (1 + p * y) := by
      field_simp
    have hkey : 2 * y * (horner (1 / (1 + p * y)) * (1 / (1 + p * y))) +
        p * (1 / (1 + p * y)) ^ 2 * Qd (1 / (1 + p * y)) =
        Sp (1 / (1 + p * y)) / p := by
      rw [eq_div_iff (ne_of_gt p_pos)]
      simp only [Sp]
      linear_combination (2 * horner (1 / (1 + p * y))) * hpyt
    rw [hkey]
    exact mul_pos (Real.exp_pos _) (div_pos (Sp_pos ht0 ht1) p_pos)

lemma percentileFromZ_of_nonneg {z : ℝ} (hz : 0 ≤ z) :
    percentileFromZ z = 50 * (1 + fPos z) := by
  simp only [percentileFromZ, erfApprox_eq_fPos, signJs, abs_of_nonneg hz]
  rw [if_neg (not_lt.mpr hz)]
  ring

lemma percentileFromZ_of_neg {z : ℝ} (hz : z < 0) :
    percentileFromZ z = 50 * (1 - fPos (-z)) := by
  simp only [percentileFromZ, erfApprox_eq_fPos, signJs, abs_of_neg hz]
  rw [if_pos hz]
  ring

/-- The unrounded percentile of the erf-approximation path is strictly
increasing in the Z-score. -/
lemma percentileFromZ_strictMono : StrictMono percentileFromZ := by
  intro z1 z2 h
  rcases le_or_lt 0 z1 with h1 | h1
  · have h2 : (0 : ℝ) ≤ z2 := le_trans h1 h.le
    rw [percentileFromZ_of_nonneg h1, percentileFromZ_of_nonneg h2]
    have := fPos_strictMonoOn (Set.mem_Ici.mpr h1) (Set.mem_Ici.mpr h2) h
    linarith
  · rcases le_or_lt 0 z2 with h2 | h2
    · rw [percentileFromZ_of_neg h1, percentileFromZ_of_nonneg h2]
      have ha : 1 / 10 ^ 9 ≤ fPos (-z1) := (fPos_bounds (by linarith)).1
      have hb : 1 / 10 ^ 9 ≤ fPos z2 := (fPos_bounds h2).1
      nlinarith
    · rw [percentileFromZ_of_neg h1, percentileFromZ_of_neg h2]
      have : fPos (-z2) < fPos (-z1) :=
        fPos_strictMonoOn (Set.mem_Ici.mpr (by linarith)) (Set.mem_Ici.mpr (by linarith))
          (by linarith)
      linarith

/-- The unrounded percentile always lies strictly between 0 and 100. -/
lemma percentileFromZ_range (z : ℝ) :
    0 < percentileFromZ z ∧ percentileFromZ z < 100 := by
  rcases le_or_lt 0 z with h | h
  · rw [percentileFromZ_of_nonneg h]
    have := fPos_bounds h
    constructor <;> nlinarith [this.1, this.2]
  · rw [percentileFromZ_of_neg h]
    have := fPos_bounds (show (0 : ℝ) ≤ -z by linarith)
    constructor <;> nlinarith [this.1, this.2]

lemma toFixed1_mono {x y : ℝ} (h : x ≤ y) : toFixed1 x ≤ toFixed1 y := by
  simp only [toFixed1]
  have hf : ⌊x * 10 + 1 / 2⌋ ≤ ⌊y * 10 + 1 / 2⌋ := Int.floor_mono (by linarith)
  have : ((⌊x * 10 + 1 / 2⌋ : ℤ) : ℝ) ≤ ((⌊y * 10 + 1 / 2⌋ : ℤ) : ℝ) := by
    exact_mod_cast hf
  linarith

lemma toFixed1_range {x : ℝ} (h0 : 0 < x) (h1 : x < 100) :
    0 ≤ toFixed1 x ∧ toFixed1 x ≤ 100 := by
  simp only [toFixed1]
  have hl : (0 : ℤ) ≤ ⌊x * 10 + 1 / 2⌋ := Int.floor_nonneg.mpr (by linarith)
  have hu : ⌊x * 10 + 1 / 2⌋ < 1001 := Int.floor_lt.mpr (by push_cast; linarith)
  have hlr : (0 : ℝ) ≤ ((⌊x * 10 + 1 / 2⌋ : ℤ) : ℝ) := by exact_mod_cast hl
  have hur : ((⌊x * 10 + 1 / 2⌋ : ℤ) : ℝ) ≤ 1000 := by
    have : ⌊x * 10 + 1 / 2⌋ ≤ 1000 := by omega
    exact_mod_cast this
  constructor <;> linarith

/-- The LMS Z-score is strictly increasing in the measurement value whenever
M > 0 and S > 0, for every L (power branch with positive or negative
exponent, and log branch at L = 0). -/
lemma zScore_strictMono {L M S v1 v2 : ℝ} (hM : 0 < M) (hS : 0 < S)
    (h1 : 0 < v1) (h12 : v1 < v2) : zScore L M S v1 < zScore L M S v2 := by
  have hm1 : 0 < v1 / M := div_pos h1 hM
  have hm12 : v1 / M < v2 / M := (div_lt_div_iff_of_pos_right hM).mpr h12
  rcases eq_or_ne L 0 with rfl | hL
  · simp only [zScore, ne_eq, not_true_eq_false, if_neg, if_false]
    exact (div_lt_div_iff_of_pos_right hS).mpr (Real.log_lt_log hm1 hm12)
  · rw [zScore, zScore, if_pos hL, if_pos hL]
    rcases lt_or_gt_of_ne hL with hneg | hpos
    · have hp : (v2 / M) ^ L < (v1 / M) ^ L :=
        Real.rpow_lt_rpow_of_neg hm1 hm12 hneg
      have hLS : L * S < 0 := mul_neg_of_neg_of_pos hneg hS
      exact (div_lt_div_right_of_neg hLS).mpr (by linarith)
    · have hp : (v1 / M) ^ L < (v2 / M) ^ L :=
        Real.rpow_lt_rpow hm1.le hm12 hpos
      have hLS : 0 < L * S := mul_pos hpos hS
      exact (div_lt_div_iff_of_pos_right hLS).mpr (by linarith)

/-- C3 amended: for a fixed row with M > 0 and S > 0 and measurement values
0 < value1 < value2, the percentile computed before the final one-decimal
rounding is strictly smaller for value1 than for value2, and the returned
(rounded) percentiles are related by ≤ (rounding can merge close values, so
strictness holds only before rounding). -/
theorem percentile_strictMono_before_rounding
    (L M S v1 v2 : ℝ) (hM : 0 < M) (hS : 0 < S) (h1 : 0 < v1) (h12 : v1 < v2) :
    percentileFromZ (zScore L M S v1) < percentileFromZ (zScore L M S v2) ∧
    toFixed1 (percentileFromZ (zScore L M S v1)) ≤
      toFixed1 (percentileFromZ (zScore L M S v2)) := by
  have hz := zScore_strictMono (L := L) hM hS h1 h12
  exact ⟨percentileFromZ_strictMono hz,
    toFixed1_mono (percentileFromZ_strictMono hz).le⟩

/-- Witness for the amended C3 at L = 2, M = 1, S = 1, value1 = 1,
value2 = 2. -/
theorem percentile_strictMono_before_rounding_witness :
    (0 : ℝ) < 1 ∧ (1 : ℝ) < 2 ∧
    (percentileFromZ (zScore 2 1 1 1) < percentileFromZ (zScore 2 1 1 2) ∧
      toFixed1 (percentileFromZ (zScore 2 1 1 1)) ≤
        toFixed1 (percentileFromZ (zScore 2 1 1 2))) :=
  ⟨one_pos, one_lt_two,
    percentile_strictMono_before_rounding 2 1 1 1 2 one_pos one_pos one_pos one_lt_two⟩

/-- C4: whenever the engine resolves a row and returns an ok percentile for a
positive measurement value, that percentile lies in [0, 100] (indeed the
unrounded value lies strictly inside (0, 100), and one-decimal rounding
keeps it inside [0, 100]). -/
theorem calculatePercentile_range
    (store : ℤ → String → ℤ → Option LMSRow) (gender ageMonths : ℤ)
    (measurementType : String) (value r : ℝ) (hv : 0 < value)
    (hrow : ∀ lms, store gender measurementType ageMonths = some lms →
      0 < lms.M ∧ 0 < lms.S)
    (hok : calculatePercentile store gender ageMonths measurementType value = .ok r) :
    0 ≤ r ∧ r ≤ 100 := by
  rcases hstore : store gender measurementType ageMonths with _ | lms
  · rw [calculatePercentile, hstore] at hok
    exact absurd hok (by simp)
  · rw [calculatePercentile, hstore] at hok
    have hr : r = toFixed1 (percentileFromZ (zScore lms.L lms.M lms.S value)) := by
      cases hok
      rfl
    subst hr
    have := percentileFromZ_range (zScore lms.L lms.M lms.S value)
    exact toFixed1_range this.1 this.2

/-!
Concrete evaluation of the part_000 pipeline at the row L = 1, M = 1, S = 1
for the two measurement values 1 and 2001/2000: both return exactly 50 after
the toFixed(1) rounding, although the unrounded percentiles differ.
-/

lemma zScore_one_one_one_one : zScore 1 1 1 1 = 0 := by
  rw [zScore, if_pos one_ne_zero]
  norm_num

lemma zScore_one_one_one_v2 : zScore 1 1 1 (2001 / 2000) = 1 / 2000 := by
  rw [zScore, if_pos one_ne_zero]
  rw [show ((2001 : ℝ) / 2000 / 1) = ((2001 / 2000 : ℝ)) by norm_num]
  rw [Real.rpow_one]
  norm_num

lemma percentileFromZ_zero : percentileFromZ 0 = 50 + 5 / 10 ^ 8 := by
  simp only [percentileFromZ, signJs, erfApprox, horner, a1, a2, a3, a4, a5, p]
  norm_num [Real.exp_zero]

lemma toFixed1_at_zero_percentile : toFixed1 (50 + 5 / 10 ^ 8) = 50 := by
  simp only [toFixed1]
  have hf : ⌊((50 : ℝ) + 5 / 10 ^ 8) * 10 + 1 / 2⌋ = 500 := by
    rw [Int.floor_eq_iff]
    constructor <;> norm_num
  rw [hf]
  norm_num

lemma percentileFromZ_v2_bounds :
    50 ≤ percentileFromZ (1 / 2000) ∧ percentileFromZ (1 / 2000) ≤ 50 + 3 / 100 := by
  have habs : |(1 / 2000 : ℝ)| = 1 / 2000 := abs_of_pos (by norm_num)
  have hr : (1 : ℝ) / (1 + p * |(1 / 2000 : ℝ)|) = 20000000000 / 20003275911 := by
    rw [habs]
    norm_num [p]
  have hpct : percentileFromZ (1 / 2000) =
      100 - 50 * (horner (20000000000 / 20003275911) * (20000000000 / 20003275911)) *
        Real.exp (-((1 / 2000 : ℝ) * (1 / 2000))) := by
    simp only [percentileFromZ, erfApprox, signJs]
    rw [if_neg (by norm_num), hr]
    ring
  have hE1 : Real.exp (-((1 / 2000 : ℝ) * (1 / 2000))) ≤ 1 := by
    rw [Real.exp_le_one_iff]
    norm_num
  have hE0 : 1 - 1 / 4000000 ≤ Real.exp (-((1 / 2000 : ℝ) * (1 / 2000))) := by
    have h := Real.add_one_le_exp (-(1 / 4000000 : ℝ))
    rw [show (-((1 / 2000 : ℝ) * (1 / 2000))) = (-(1 / 4000000 : ℝ)) by norm_num]
    linarith
  have hQ1 : horner ((20000000000 : ℝ) / 20003275911) * (20000000000 / 20003275911) ≤ 1 := by
    simp only [horner, a1, a2, a3, a4, a5]
    norm_num
  have hQ0 : 0 ≤ horner ((20000000000 : ℝ) / 20003275911) * (20000000000 / 20003275911) := by
    simp only [horner, a1, a2, a3, a4, a5]
    norm_num
  have hQlo : (9994 / 10000 : ℝ) ≤
      horner ((20000000000 : ℝ) / 20003275911) * (20000000000 / 20003275911) *
        (1 - 1 / 4000000) := by
    simp only [horner, a1, a2, a3, a4, a5]
    norm_num
  constructor
  · rw [hpct]
    have h1 : horner ((20000000000 : ℝ) / 20003275911) * (20000000000 / 20003275911) *
        Real.exp (-((1 / 2000 : ℝ) * (1 / 2000))) ≤ 1 * 1 := by
      apply mul_le_mul hQ1 hE1 (Real.exp_pos _).le (by norm_num)
    linarith
  · rw [hpct]
    have h2 : horner ((20000000000 : ℝ) / 20003275911) * (20000000000 / 20003275911) *
        (1 - 1 / 4000000) ≤
        horner ((20000000000 : ℝ) / 20003275911) * (20000000000 / 20003275911) *
          Real.exp (-((1 / 2000 : ℝ) * (1 / 2000))) :=
      mul_le_mul_of_nonneg_left hE0 hQ0
    linarith

lemma toFixed1_v2_percentile : toFixed1 (percentileFromZ (1 / 2000)) = 50 := by
  have hb := percentileFromZ_v2_bounds
  simp only [toFixed1]
  have hf : ⌊percentileFromZ (1 / 2000) * 10 + 1 / 2⌋ = 500 := by
    rw [Int.floor_eq_iff]
    constructor
    · push_cast
      linarith [hb.1]
    · push_cast
      linarith [hb.2]
  rw [hf]
  norm_num

/-- The engine output at the row (1, 1, 1) and value 1 is exactly 50. -/
lemma calculatePercentile_at_one :
    calculatePercentile (fun _ _ _ => some ⟨1, 1, 1⟩) 1 24 "height" 1 = .ok 50 := by
  show Except.ok (toFixed1 (percentileFromZ (zScore 1 1 1 1))) = _
  rw [zScore_one_one_one_one, percentileFromZ_zero, toFixed1_at_zero_percentile]

/-- The engine output at the row (1, 1, 1) and value 2001/2000 is also
exactly 50. -/
lemma calculatePercentile_at_v2 :
    calculatePercentile (fun _ _ _ => some ⟨1, 1, 1⟩) 1 24 "height" (2001 / 2000) = .ok 50 := by
  show Except.ok (toFixed1 (percentileFromZ (zScore 1 1 1 (2001 / 2000)))) = _
  rw [zScore_one_one_one_v2, toFixed1_v2_percentile]

/-- C3 counterexample: for the fixed resolvable row L = 1, M = 1, S = 1
(M > 0, S > 0) and the positive values 1 < 2001/2000, the engine returns the
same percentile (50) for both, so the returned percentile for value1 is not
strictly less than the one for value2: toFixed(1) rounding merges them. -/
theorem percentile_monotonicity_counterexample :
    (1 : ℝ) < 2001 / 2000 ∧
    calculatePercentile (fun _ _ _ => some ⟨1, 1, 1⟩) 1 24 "height" 1 =
      calculatePercentile (fun _ _ _ => some ⟨1, 1, 1⟩) 1 24 "height" (2001 / 2000) := by
  refine ⟨by norm_num, ?_⟩
  rw [calculatePercentile_at_one, calculatePercentile_at_v2]

/-- Witness for C4 at the concrete store holding the row (1, 1, 1) and the
measurement value 1 (returned percentile 50). -/
theorem calculatePercentile_range_witness : (0 : ℝ) ≤ 50 ∧ (50 : ℝ) ≤ 100 :=
  calculatePercentile_range (fun _ _ _ => some ⟨1, 1, 1⟩) 1 24 "height" 1 50 one_pos
    (fun lms hl => by cases hl; exact ⟨one_pos, one_pos⟩)
    calculatePercentile_at_one

end Drlike6
